import Mathlib

/-!
# Verification of the mccdaq USB-1608FS-Plus analog-input driver

A shallow embedding of the analog-input scan engine of the `usb1608fsplus`
package (gotmc/mccdaq): pacer-period computation, scan-packet packing,
voltage conversion, calibration-memory access and gain-table construction,
and the scan-data `Read` path over an abstract device transport.

Modelling conventions:
* Go `float64`/`float32` arithmetic is modelled exactly over `ℚ`.  Every
  numeric value appearing in the verified properties (pacer periods for the
  tested frequencies, voltage conversions with power-of-two denominators)
  is exactly representable in the corresponding IEEE format, so the
  rational model agrees with the float model on these properties.
* Go byte slices are `List Nat` (each entry < 256 where it matters).
* Machine integer conversions carry explicit `% 2^32` wrapping.
* The USB transport (`DAQer` interface / `libusb` control transfers) is an
  abstract state machine supplied by the caller; the embedding records a
  trace of the device interactions each operation performs.
-/

namespace Mccdaq

/-! ## Constants (usb1608fsplus/constants.go) -/

def maxFrequency : ℚ := 500000

def bytesPerWord : Nat := 2

def converter : Int := 32768

def numChannels : Nat := 8

def maxBulkTransferPacketSize : Nat := 64

def maxNumADChannels : Nat := 8

def maxNumGainLevels : Nat := 8

/-- Status bit `scanRunning = 0x1 << 1`. -/
def scanRunning : Nat := 2

/-- Status bit `scanOverrun = 0x1 << 2`. -/
def scanOverrun : Nat := 4

/-- Command code `commandAnalogStartScan = 0x11` (commands.go). -/
def commandAnalogStartScan : Nat := 0x11

/-- Command code `commandAnalogStopScan = 0x12` (commands.go). -/
def commandAnalogStopScan : Nat := 0x12

/-- Command code `commandAnalogClearBuffer = 0x15` (commands.go). -/
def commandAnalogClearBuffer : Nat := 0x15

/-- `TransferMode` value `BlockTransfer = 0x0`. -/
def BlockTransfer : Nat := 0

/-- `TransferMode` value `ImmediateTransfer = 0x1`. -/
def ImmediateTransfer : Nat := 1

/-! ## Byte-level helpers (encoding/binary little-endian) -/

/-- `binary.LittleEndian.Uint16`: decode a 2-byte little-endian word
(`DecodeWord` in the source). -/
def DecodeWord (data : List Nat) : Nat :=
  data.getD 0 0 + 256 * data.getD 1 0

/-- `binary.LittleEndian.PutUint16` into a fresh 2-byte slice
(`EncodeWord` in the source). -/
def EncodeWord (i : Nat) : List Nat :=
  [i % 256, i / 256 % 256]

/-- `binary.LittleEndian.PutUint32` into a fresh 4-byte slice. -/
def putUint32LE (x : Nat) : List Nat :=
  [x % 256, x / 256 % 256, x / 65536 % 256, x / 16777216 % 256]

/-- `binary.LittleEndian.Uint32`: decode 4 little-endian bytes. -/
def getUint32LE (data : List Nat) : Nat :=
  data.getD 0 0 + 256 * data.getD 1 0 + 65536 * data.getD 2 0 +
    16777216 * data.getD 3 0

/-- Go conversion `uint32(i)` of a (possibly negative) `int`: two's
complement wrap-around modulo `2^32`. -/
def uint32OfInt (i : Int) : Nat :=
  (i % 4294967296).toNat

/-- The effect of a Go transport call writing `src` into a caller buffer
currently holding `buf`: the first `min src.length buf.length` bytes are
replaced, the rest of `buf` is kept. -/
def fillBuffer (buf src : List Nat) : List Nat :=
  src.take buf.length ++ buf.drop src.length

/-! ## Rounding (the float64 helpers from analog.go / part_017) -/

/-- Go conversion `int(f)` of a float: truncation toward zero. -/
def trunc (q : ℚ) : Int :=
  if 0 ≤ q then ⌊q⌋ else ⌈q⌉

/-- `round` from usb1608fsplus/analog.go (the `float64 → int` version used
by `calculatePacerPeriod`):
`if math.Abs(f) < 0.5 then 0 else int(f + math.Copysign(0.5, f))`. -/
def round (f : ℚ) : Int :=
  if |f| < 1 / 2 then 0
  else trunc (f + (if 0 ≤ f then (1 : ℚ) / 2 else -(1 : ℚ) / 2))

/-- `roundFloatToInt` from part_017, used by `adjustRawValue`; textually the
same algorithm as `round`. -/
def roundFloatToInt (f : ℚ) : Int :=
  if |f| < 1 / 2 then 0
  else trunc (f + (if 0 ≤ f then (1 : ℚ) / 2 else -(1 : ℚ) / 2))

/-- Round half away from zero, written from the specification text
("round-half-away-from-zero semantics"), for comparison with the code's
`round`. -/
def roundHalfAway (q : ℚ) : Int :=
  if 0 ≤ q then ⌊q + 1 / 2⌋ else ⌈q - 1 / 2⌉

/-! ## Pacer period and scan-packet packing (analog.go) -/

/-- `calculatePacerPeriod` (analog.go lines 402-410): clamp the frequency to
`maxFrequency`, then `round((40e6 / frequency) - 1)` for positive
frequencies and `0` otherwise. -/
def calculatePacerPeriod (frequency : ℚ) : Int :=
  let f := if frequency > maxFrequency then maxFrequency else frequency
  if f > 0 then round (40000000 / f - 1) else 0

/-- `packScanData` (analog.go lines 376-400): the 10-byte AInScan start
payload `[numScans u32 LE][pacerPeriod u32 LE][channels][options]`. -/
def packScanData (numScans : Int) (frequency : ℚ)
    (channels options : Nat) : List Nat :=
  let binaryNumScans := putUint32LE (uint32OfInt numScans)
  let binaryPacerPeriod := putUint32LE (uint32OfInt (calculatePacerPeriod frequency))
  binaryNumScans ++ binaryPacerPeriod ++ [channels, options]

/-! ## Voltage conversion (part_017, constants.go) -/

/-- The `VoltageMultiplier` map from constants.go.  A `VoltageRange` is a
byte code; the map holds entries for `Range10V = 0x0`, `Range5V = 0x1`,
`Range2V = 0x3` and `Range1V = 0x5` only, and a Go map lookup on a missing
key yields the zero value `0.0`. -/
def VoltageMultiplier (r : Nat) : ℚ :=
  if r = 0 then 10
  else if r = 1 then 5
  else if r = 3 then 2
  else if r = 5 then 1
  else 0

/-- `Volts` (part_017 lines 97-101): signed offset from the midpoint,
`VoltageMultiplier[range] * float64(b - converter) / converter`. -/
def Volts (b : Int) (r : Nat) : ℚ :=
  VoltageMultiplier r * ((b : ℚ) - (converter : ℚ)) / (converter : ℚ)

/-- `RawVoltsFromWord` (part_017 lines 86-92). -/
def RawVoltsFromWord (data : List Nat) (r : Nat) : Except String ℚ :=
  if data.length ≠ bytesPerWord then
    .error "binary value must be 2 bytes"
  else
    .ok (Volts (DecodeWord data : Int) r)

/-- `adjustRawValue` (part_017 lines 122-125): gain/offset correction of a
raw word, `roundFloatToInt(float64(value)*slope + offset)`. -/
def adjustRawValue (value : Nat) (slope offset : ℚ) : Int :=
  roundFloatToInt ((value : ℚ) * slope + offset)

/-- `VoltsFromWord` (part_017 lines 74-82): adjust-then-convert pipeline. -/
def VoltsFromWord (data : List Nat) (r : Nat) (slope offset : ℚ) :
    Except String ℚ :=
  if data.length ≠ bytesPerWord then
    .error "binary value must be 2 bytes"
  else
    .ok (Volts (adjustRawValue (DecodeWord data) slope offset) r)

/-! ## Calibration memory (memory.go) -/

/-- Two's-complement wrap-around of a Go `int64` (`int` on the 64-bit
platforms this driver targets): every arithmetic operation reduces into
`[-2^63, 2^63)`. -/
def int64Wrap (z : Int) : Int :=
  (z + 2 ^ 63) % 2 ^ 64 - 2 ^ 63

/-- Go conversion `uint16(i)` of an `int`: wrap-around modulo `2^16`. -/
def uint16OfInt (i : Int) : Nat :=
  (i % 65536).toNat

/-- `validCalMemoryRange` (memory.go lines 91-102).  The expression
`address + count - 1` is a Go `int` computation, so each operation wraps:
`int64Wrap (int64Wrap (address + count) - 1)` is the machine value the
source compares against `maxCalMemoryLocation`. -/
def validCalMemoryRange (address count : Int) : Bool :=
  let numCalMemoryBytes : Int := 768
  let maxCalMemoryLocation : Int := 0x02ff
  if count ≤ 0 || numCalMemoryBytes < count then false
  else if address < 0 ||
      maxCalMemoryLocation < int64Wrap (int64Wrap (address + count) - 1) then false
  else true

/-- The control-transfer oracle used by the calibration-memory reads: given
the (uint16) address and a byte count it yields the error reported by the
transfer (if any) and the bytes it wrote into the caller's buffer. -/
structure CalDevice where
  ctrl : Nat → Nat → Option String × List Nat

/-- The outcome of one `ReadCalMemory` call: the `make([]byte, count)` on
its first line panics for a negative count (before the range check), an
out-of-range request returns the range error, and any other request
returns the buffer with a nil error. -/
inductive CalReadResult
  | panic (msg : String)
  | error (msg : String)
  | ok (data : List Nat)
deriving DecidableEq

/-- `ReadCalMemory` (memory.go lines 71-85).  Returns the outcome together
with the trace of `(address, count)` control transfers issued.  The first
statement `data := make([]byte, count)` panics when `count < 0`, before
the range check.  Past the range check the source discards the
`ControlTransfer` return values entirely (both the count and the error)
and returns `data` with a nil error; the wire address is `uint16(address)`. -/
def ReadCalMemory (dev : CalDevice) (address count : Int) :
    CalReadResult × List (Int × Int) :=
  if count < 0 then (.panic "makeslice: len out of range", [])
  else
    let data0 := List.replicate count.toNat 0
    if validCalMemoryRange address count = false then
      (.error "Tyring to access outside calibration memory range 0x0000 to 0x02FF",
        [])
    else
      let r := dev.ctrl (uint16OfInt address) count.toNat
      (.ok (fillBuffer data0 r.2), [(address, count)])

/-- IEEE-754 single-precision decode of a 32-bit pattern, as an exact
rational.  The exponent-255 patterns (infinities and NaNs) have no rational
value and are mapped to `0`; no verified property depends on the numeric
value of a decoded float. -/
def float32FromBits (bits : Nat) : ℚ :=
  let sign : Nat := bits / 2 ^ 31 % 2
  let expo : Nat := bits / 2 ^ 23 % 256
  let mant : Nat := bits % 2 ^ 23
  let mag : ℚ :=
    if expo = 0 then (mant : ℚ) / 2 ^ 23 * (2 : ℚ) ^ (-(126 : Int))
    else if expo = 255 then 0
    else (1 + (mant : ℚ) / 2 ^ 23) * (2 : ℚ) ^ ((expo : Int) - 127)
  if sign = 1 then -mag else mag

/-- `convertBytesToFloat32` (memory.go lines 87-89):
`math.Float32frombits(binary.LittleEndian.Uint32(data))`. -/
def convertBytesToFloat32 (data : List Nat) : ℚ :=
  float32FromBits (getUint32LE data)

/-- `GainTable` (memory.go lines 20-23). -/
structure GainTable where
  Slope : List (List ℚ)
  Intercept : List (List ℚ)

/-- The bytes the `data, _ = daq.ReadCalMemory(...)` assignment leaves in
`data`: the buffer on success, the nil slice on the (discarded) range
error.  The panic outcome cannot arise in `BuildGainTable`, whose `count`
is the literal 4. -/
def calData (r : CalReadResult) : List Nat :=
  match r with
  | .ok data => data
  | _ => []

/-- The inner `j` loop of `BuildGainTable`: for each of `fuel` channels,
read a 4-byte slope then a 4-byte intercept at consecutive addresses,
discarding the `ReadCalMemory` error exactly as the source's `data, _ =`
does (on error the Go `data` slice is nil, modelled as `[]`).  Returns the
slope row, the intercept row, and the next address. -/
def gainRow (dev : CalDevice) : Nat → Nat → List ℚ × List ℚ × Nat
  | 0, address => ([], [], address)
  | fuel + 1, address =>
    let slopeData := calData (ReadCalMemory dev (address : Int) 4).1
    let interceptData := calData (ReadCalMemory dev ((address + 4 : Nat) : Int) 4).1
    let rest := gainRow dev fuel (address + 8)
    (convertBytesToFloat32 slopeData :: rest.1,
      convertBytesToFloat32 interceptData :: rest.2.1, rest.2.2)

/-- The outer `i` loop of `BuildGainTable` over the gain levels. -/
def gainRows (dev : CalDevice) : Nat → Nat → List (List ℚ) × List (List ℚ) × Nat
  | 0, address => ([], [], address)
  | fuel + 1, address =>
    let row := gainRow dev maxNumADChannels address
    let rest := gainRows dev fuel row.2.2
    (row.1 :: rest.1, row.2.1 :: rest.2.1, rest.2.2)

/-- `BuildGainTable` (memory.go lines 29-59): 8 gain levels by 8 channels
of (slope, intercept) pairs read sequentially from address 0, all
`ReadCalMemory` errors discarded, and the function's own error result is
the literal `nil`. -/
def BuildGainTable (dev : CalDevice) : GainTable × Option String :=
  let r := gainRows dev maxNumGainLevels 0
  ({ Slope := r.1, Intercept := r.2.1 }, none)

/-! ## The analog input session (analog.go) -/

/-- `Channel` (analog.go lines 32-38).  The Go `Slopes`/`Intercepts` maps
(`map[VoltageRange]float64`, zero default on a missing key) are modelled as
total functions. -/
structure Channel where
  Enabled : Bool
  Range : Nat
  Description : String
  Slopes : Nat → ℚ
  Intercepts : Nat → ℚ

/-- The `DAQer` interface (device.go): an abstract transport with explicit
state `σ`.  `read` takes the requested byte count and yields the new state,
the reported byte count, the bytes written into the caller's buffer, and
the error, matching `Read(p []byte) (n int, err error)`. -/
structure DAQer (σ : Type) where
  sendCommandToDevice : σ → Nat → List Nat → σ × Except String Nat
  read : σ → Nat → σ × Nat × List Nat × Option String
  status : σ → σ × Except String Nat

/-- `AnalogInput` (analog.go lines 19-29). -/
structure AnalogInput (σ : Type) where
  DAQ : DAQer σ
  Frequency : ℚ
  TransferMode : Nat
  Trigger : Nat
  UseExternalPacer : Bool
  OutputPacerOnSync : Bool
  DebugMode : Bool
  Stall : Nat
  Channels : List Channel

/-- One device interaction performed during a `Read` call. -/
inductive DAQEvent
  | command (cmd : Nat) (data : List Nat)
  | bulkRead (requested : Nat)
  | statusRead
deriving DecidableEq

/-- Everything observable about one `Read(p []byte)` call: the returned
count and error, the caller's buffer contents after the call, the internal
`data` buffer the function filled, the device interactions, and the final
transport state. -/
structure ReadResult (σ : Type) where
  n : Nat
  err : Option String
  finalP : List Nat
  internalData : List Nat
  trace : List DAQEvent
  finalState : σ

/-- The immediate-transfer-mode loop of `Read` (analog.go lines 276-289):
for each word, read 2 bytes into a fresh `word` buffer; on a transfer error
return at once; add the received count to `n`; reject a received count
other than 2; otherwise store `word[0]` at `data[i]` and `word[1]` at
`data[i+1]` and continue at `i+1`.  Arguments: remaining iterations, the
index `i`, the transport state, the running count `n`, the `data` buffer,
and the trace so far. -/
def immediateLoop (daq : DAQer σ) :
    Nat → Nat → σ → Nat → List Nat → List DAQEvent →
      σ × Nat × List Nat × List DAQEvent × Option String
  | 0, _, st, n, data, tr => (st, n, data, tr, none)
  | fuel + 1, i, st, n, data, tr =>
    let r := daq.read st bytesPerWord
    let word := fillBuffer (List.replicate bytesPerWord 0) r.2.2.1
    let tr := tr ++ [DAQEvent.bulkRead bytesPerWord]
    match r.2.2.2 with
    | some e => (r.1, n, data, tr, some ("immediate scan error: " ++ e))
    | none =>
      let n := n + r.2.1
      if r.2.1 ≠ bytesPerWord then
        (r.1, n, data, tr, some "immediate transfer byte count mismatch")
      else
        immediateLoop daq fuel (i + 1) r.1 n
          ((data.set i (word.getD 0 0)).set (i + 1) (word.getD 1 0)) tr

/-- The transfer phase of `Read` — the `switch ai.TransferMode` statement
of analog.go lines 274-301: the new transport state, the running count
`n`, the internal `data` buffer, the trace of bulk reads, and the error,
for the session's transfer mode.  Its value is consumed by `Read` below;
it is named so that properties of the status/drain/overrun epilogue can be
stated independently of the transfer mode. -/
def transferPhase (ai : AnalogInput σ) (st : σ) (p : List Nat) :
    σ × Nat × List Nat × List DAQEvent × Option String :=
  let bytesToRead := p.length
  let wordsToRead := bytesToRead / bytesPerWord
  let data0 := List.replicate bytesToRead 0
  if ai.TransferMode = ImmediateTransfer then
    immediateLoop ai.DAQ wordsToRead 0 st 0 data0 []
  else if ai.TransferMode = BlockTransfer then
    let r := ai.DAQ.read st bytesToRead
    let data := fillBuffer data0 r.2.2.1
    let tr := [DAQEvent.bulkRead bytesToRead]
    match r.2.2.2 with
    | some e => (r.1, 0, data, tr, some ("Problem with bulk scan " ++ e))
    | none =>
      if r.2.1 ≠ bytesToRead then
        (r.1, r.2.1, data, tr, some "did not transfer the requested bytes")
      else (r.1, r.2.1, data, tr, none)
  else (st, 0, data0, [], some "bad transfer mode")

/-- `Read` (analog.go lines 266-318).  The caller's buffer `p` contributes
its length; the received bytes go into the freshly allocated internal
`data` buffer.  After a successful transfer the device status is read; when
`bytesToRead` is a multiple of the packet size and the scan is no longer
running, a 2-byte drain read is issued and discarded; when the overrun bit
is set, the stop-scan and clear-buffer commands are issued (their results
discarded) and the function returns the nil `err` left by the successful
status call. -/
def Read (ai : AnalogInput σ) (st : σ) (p : List Nat) : ReadResult σ :=
  let bytesToRead := p.length
  if bytesToRead % maxBulkTransferPacketSize ≠ 0 then
    { n := 0, err := some "bytes to read is not a multiple of maxBulkTransferPacketSize",
      finalP := p, internalData := [], trace := [], finalState := st }
  else
    let step := transferPhase ai st p
    match step.2.2.2.2 with
    | some e =>
      { n := step.2.1, err := some e, finalP := p, internalData := step.2.2.1,
        trace := step.2.2.2.1, finalState := step.1 }
    | none =>
      let rs := ai.DAQ.status step.1
      let tr := step.2.2.2.1 ++ [DAQEvent.statusRead]
      match rs.2 with
      | .error e =>
        { n := step.2.1, err := some ("error getting status during analog bulk read " ++ e),
          finalP := p, internalData := step.2.2.1, trace := tr, finalState := rs.1 }
      | .ok status =>
        let afterDrain :=
          if bytesToRead % maxBulkTransferPacketSize = 0 ∧ status &&& scanRunning = 0 then
            let rd := ai.DAQ.read rs.1 bytesPerWord
            (rd.1, tr ++ [DAQEvent.bulkRead bytesPerWord])
          else (rs.1, tr)
        let afterOverrun :=
          if status &&& scanOverrun ≠ 0 then
            let s1 := ai.DAQ.sendCommandToDevice afterDrain.1 commandAnalogStopScan []
            let s2 := ai.DAQ.sendCommandToDevice s1.1 commandAnalogClearBuffer []
            (s2.1, afterDrain.2 ++
              [DAQEvent.command commandAnalogStopScan [],
               DAQEvent.command commandAnalogClearBuffer []])
          else afterDrain
        { n := step.2.1, err := none, finalP := p, internalData := step.2.2.1,
          trace := afterOverrun.2, finalState := afterOverrun.1 }

/-! ## Batch voltage conversion (analog.go `Voltages`) -/

/-- The slice expression `data[firstByte : firstByte+bytesPerWord]`. -/
def sliceWord (data : List Nat) (firstByte : Nat) : List Nat :=
  (data.drop firstByte).take bytesPerWord

/-- Error-propagating map: the first failure aborts the traversal.  (The Go
loops also return the partially filled matrix next to the error; the
partial matrix is dropped here, the error and the success value agree.) -/
def mapExcept (f : α → Except String β) : List α → Except String (List β)
  | [] => .ok []
  | a :: as =>
    match f a with
    | .error e => .error e
    | .ok b =>
      match mapExcept f as with
      | .error e => .error e
      | .ok bs => .ok (b :: bs)

/-- `Voltages` (analog.go lines 516-547): reject a buffer whose length is
not a multiple of `bytesPerWord * len(ai.Channels)`, then convert word
`scan*numChannels + i` (the Go code's running `word` counter in its
scan-major fill of `voltages[i][scan]`) for every channel row `i` and scan
column.  Each channel uses its configured range with the slope and
intercept looked up at that range. -/
def Voltages (ai : AnalogInput σ) (data : List Nat) :
    Except String (List (List ℚ)) :=
  if data.length % (bytesPerWord * ai.Channels.length) ≠ 0 then
    .error "data len must be multiple of 2 bytes x 8 channels"
  else
    let scans := data.length / (bytesPerWord * ai.Channels.length)
    mapExcept (fun i =>
      let ch := ai.Channels.getD i ⟨false, 0, "", fun _ => 0, fun _ => 0⟩
      mapExcept (fun scan =>
        VoltsFromWord
          (sliceWord data ((scan * ai.Channels.length + i) * bytesPerWord))
          ch.Range (ch.Slopes ch.Range) (ch.Intercepts ch.Range))
        (List.range scans))
      (List.range ai.Channels.length)

/-! ## Helper lemmas -/

theorem round_intCast (n : ℤ) : round (n : ℚ) = n := by
  have hcases : n = 0 ∨ 1 ≤ n ∨ n ≤ -1 := by omega
  unfold round trunc
  split_ifs with h1 h2 h3 h4
  · rcases hcases with h | h | h
    · simp [h]
    · exfalso; rw [abs_lt] at h1
      have : (1 : ℚ) ≤ (n : ℚ) := by exact_mod_cast h
      linarith [h1.2]
    · exfalso; rw [abs_lt] at h1
      have : (n : ℚ) ≤ -1 := by exact_mod_cast h
      linarith [h1.1]
  · rw [Int.floor_eq_iff]
    constructor <;> linarith
  · exfalso; linarith
  · exfalso; push_neg at h2 h4; linarith
  · rw [Int.ceil_eq_iff]
    constructor <;> linarith

theorem round_eq_roundHalfAway (f : ℚ) : round f = roundHalfAway f := by
  unfold round roundHalfAway trunc
  split_ifs with h1 h2 h3 h4 h5
  · symm; rw [abs_lt] at h1
    rw [Int.floor_eq_zero_iff, Set.mem_Ico]
    constructor <;> linarith [h1.1, h1.2]
  · symm; rw [abs_lt] at h1
    rw [Int.ceil_eq_zero_iff, Set.mem_Ioc]
    constructor <;> linarith [h1.1, h1.2]
  · rfl
  · exfalso; linarith
  · exfalso; push_neg at h3 h5; linarith
  · norm_num [sub_eq_add_neg]

theorem multiplier_nonneg (r : Nat) : 0 ≤ VoltageMultiplier r := by
  unfold VoltageMultiplier
  split_ifs <;> norm_num

theorem decodeWord_encodeWord (w : Nat) (h : w < 65536) :
    DecodeWord (EncodeWord w) = w := by
  unfold DecodeWord EncodeWord
  simp only [List.getD_cons_zero, List.getD_cons_succ]
  omega

theorem getUint32LE_putUint32LE (x : Nat) (h : x < 4294967296) :
    getUint32LE (putUint32LE x) = x := by
  unfold getUint32LE putUint32LE
  simp only [List.getD_cons_zero, List.getD_cons_succ]
  omega

theorem uint32OfInt_lt (i : Int) : uint32OfInt i < 4294967296 := by
  unfold uint32OfInt
  have h1 : 0 ≤ i % 4294967296 := Int.emod_nonneg i (by norm_num)
  have h2 : i % 4294967296 < 4294967296 := Int.emod_lt_of_pos i (by norm_num)
  omega

theorem adjustRawValue_one_zero (v : Nat) : adjustRawValue v 1 0 = (v : Int) := by
  unfold adjustRawValue roundFloatToInt trunc
  rw [mul_one, add_zero]
  by_cases h : |(v : ℚ)| < 1 / 2
  · rw [if_pos h]
    rw [abs_lt] at h
    have hv : v = 0 := by
      by_contra hv
      have : (1 : ℚ) ≤ (v : ℚ) := by exact_mod_cast Nat.one_le_iff_ne_zero.mpr hv
      linarith [h.2]
    simp [hv]
  · have h0 : (0 : ℚ) ≤ (v : ℚ) := Nat.cast_nonneg v
    rw [if_neg h, if_pos h0, if_pos (by linarith : (0 : ℚ) ≤ (v : ℚ) + 1 / 2)]
    rw [Int.floor_eq_iff]
    constructor <;> push_cast <;> linarith

theorem rawVoltsFromWord_eq (w r : Nat) (h : w < 65536) :
    RawVoltsFromWord (EncodeWord w) r =
      .ok (VoltageMultiplier r * ((w : ℚ) - 32768) / 32768) := by
  unfold RawVoltsFromWord
  rw [if_neg (by simp [EncodeWord, bytesPerWord])]
  rw [decodeWord_encodeWord w h]
  unfold Volts converter
  push_cast
  rfl

theorem validCalMemoryRange_iff_no_overflow (address count : Int)
    (hov : address + count ≤ 2 ^ 63) :
    validCalMemoryRange address count = true ↔
      0 < count ∧ count ≤ 768 ∧ 0 ≤ address ∧ address + count - 1 ≤ 0x2ff := by
  unfold validCalMemoryRange int64Wrap
  dsimp only
  split_ifs with h1 h2
  · simp only [Bool.or_eq_true, decide_eq_true_eq] at h1
    simp only [false_iff]
    omega
  · simp only [Bool.or_eq_true, decide_eq_true_eq] at h1 h2
    simp only [false_iff]
    omega
  · simp only [Bool.or_eq_true, decide_eq_true_eq, not_or] at h1 h2
    simp only [true_iff]
    omega

theorem calculatePacerPeriod_10000 : calculatePacerPeriod 10000 = 3999 := by
  norm_num [calculatePacerPeriod, maxFrequency, round, trunc]

theorem calculatePacerPeriod_50000 : calculatePacerPeriod 50000 = 799 := by
  norm_num [calculatePacerPeriod, maxFrequency, round, trunc]

theorem calculatePacerPeriod_40M : calculatePacerPeriod 40000000 = 79 := by
  norm_num [calculatePacerPeriod, maxFrequency, round, trunc]

/-! ## Claim theorems -/

/-- C9 (amended): the validator computes `address + count - 1` with Go's
wrapping int64 arithmetic; whenever that computation does not overflow
(`address + count ≤ 2^63`) it accepts iff `count > 0`, `count ≤ 768`,
`address ≥ 0` and `address + count - 1 ≤ 0x2FF`, and the five concrete
vectors hold.  A violating read with a nonnegative count fails without
any transport call; a read with a negative count panics at the
`make([]byte, count)` allocation before the range check instead of
returning the range error. -/
theorem claim_validCalMemoryRange_amended :
    (∀ address count : Int, address + count ≤ 2 ^ 63 →
       (validCalMemoryRange address count = true ↔
         0 < count ∧ count ≤ 768 ∧ 0 ≤ address ∧ address + count - 1 ≤ 0x2ff))
    ∧ validCalMemoryRange 0 768 = true
    ∧ validCalMemoryRange 0 769 = false
    ∧ validCalMemoryRange 0x2ff 1 = true
    ∧ validCalMemoryRange 0x2ff 2 = false
    ∧ validCalMemoryRange (-1) 1 = false
    ∧ (∀ (dev : CalDevice) (address count : Int), 0 ≤ count →
        validCalMemoryRange address count = false →
          (∃ e, (ReadCalMemory dev address count).1 = CalReadResult.error e) ∧
          (ReadCalMemory dev address count).2 = [])
    ∧ (∀ (dev : CalDevice) (address count : Int), count < 0 →
        (∃ e, (ReadCalMemory dev address count).1 = CalReadResult.panic e) ∧
        (ReadCalMemory dev address count).2 = []) := by
  refine ⟨validCalMemoryRange_iff_no_overflow, by decide, by decide, by decide,
    by decide, by decide, ?_, ?_⟩
  · intro dev address count hc h
    unfold ReadCalMemory
    rw [if_neg (by omega), if_pos h]
    exact ⟨⟨_, rfl⟩, rfl⟩
  · intro dev address count hc
    unfold ReadCalMemory
    rw [if_pos hc]
    exact ⟨⟨_, rfl⟩, rfl⟩

/-- A transport oracle whose calibration-memory transfers always succeed
and write nothing. -/
def nullCalDevice : CalDevice := ⟨fun _ _ => (none, [])⟩

/-- Witness for C9: the in-range iff at `(0, 768)`, the fail-fast range
error at `(-1, 1)`, and the pre-check panic at `count = -1`. -/
theorem claim_validCalMemoryRange_amended_witness :
    (validCalMemoryRange 0 768 = true ↔
      0 < (768 : Int) ∧ (768 : Int) ≤ 768 ∧ 0 ≤ (0 : Int) ∧
        (0 : Int) + 768 - 1 ≤ 0x2ff) ∧
    ((∃ e, (ReadCalMemory nullCalDevice (-1) 1).1 = CalReadResult.error e) ∧
      (ReadCalMemory nullCalDevice (-1) 1).2 = []) ∧
    ((∃ e, (ReadCalMemory nullCalDevice 0 (-1)).1 = CalReadResult.panic e) ∧
      (ReadCalMemory nullCalDevice 0 (-1)).2 = []) :=
  ⟨claim_validCalMemoryRange_amended.1 0 768 (by norm_num),
   claim_validCalMemoryRange_amended.2.2.2.2.2.2.1 nullCalDevice (-1) 1
     (by norm_num) (by decide),
   claim_validCalMemoryRange_amended.2.2.2.2.2.2.2 nullCalDevice 0 (-1)
     (by norm_num)⟩

/-- C9 counterexample: at `address = 2^63 - 1`, `count = 2` the Go int
addition in `address + count - 1` wraps to a negative value, so the
validator accepts although the claimed mathematical rule rejects
(`address + count - 1 = 2^63 > 0x2FF`), and the read proceeds to issue
the control transfer instead of failing fast. -/
theorem claim_validCalMemoryRange_cex :
    validCalMemoryRange (2 ^ 63 - 1) 2 = true ∧
    ¬((2 ^ 63 - 1 : Int) + 2 - 1 ≤ 0x2ff) ∧
    (ReadCalMemory nullCalDevice (2 ^ 63 - 1) 2).2 = [(2 ^ 63 - 1, 2)] :=
  ⟨by decide, by decide, by decide⟩

/-- C5: `calculatePacerPeriod` clamps frequencies above 500000 (so it
agrees with the value at 500000 there), computes
`round-half-away-from-zero (40e6 / f - 1)` for positive in-range
frequencies, returns 0 for nonpositive frequencies, and the three concrete
vectors hold. -/
theorem claim_calculatePacerPeriod :
    (∀ f : ℚ, f > 500000 → calculatePacerPeriod f = calculatePacerPeriod 500000)
    ∧ (∀ f : ℚ, 0 < f → f ≤ 500000 →
        calculatePacerPeriod f = roundHalfAway (40000000 / f - 1))
    ∧ (∀ f : ℚ, f ≤ 0 → calculatePacerPeriod f = 0)
    ∧ calculatePacerPeriod 10000 = 3999
    ∧ calculatePacerPeriod 50000 = 799
    ∧ calculatePacerPeriod 40000000 = 79 := by
  refine ⟨?_, ?_, ?_, ?_, ?_, ?_⟩
  · intro f h
    simp only [calculatePacerPeriod, maxFrequency]
    rw [if_pos h, if_neg (show ¬((500000 : ℚ) > 500000) by norm_num)]
  · intro f h0 hle
    simp only [calculatePacerPeriod, maxFrequency]
    rw [if_neg (not_lt.mpr hle), if_pos h0, round_eq_roundHalfAway]
  · intro f h
    simp only [calculatePacerPeriod, maxFrequency]
    rw [if_neg (by linarith : ¬f > 500000), if_neg (not_lt.mpr h)]
  · exact calculatePacerPeriod_10000
  · exact calculatePacerPeriod_50000
  · exact calculatePacerPeriod_40M

/-- Witness for C5: the clamp law at 40 MHz, the formula at 10 kHz, and the
zero case at 0. -/
theorem claim_calculatePacerPeriod_witness :
    calculatePacerPeriod 40000000 = calculatePacerPeriod 500000 ∧
    calculatePacerPeriod 10000 = roundHalfAway (40000000 / 10000 - 1) ∧
    calculatePacerPeriod 0 = 0 :=
  ⟨claim_calculatePacerPeriod.1 40000000 (by norm_num),
   claim_calculatePacerPeriod.2.1 10000 (by norm_num) (by norm_num),
   claim_calculatePacerPeriod.2.2.1 0 le_rfl⟩

/-- C6: for every `numScans`, frequency, channel mask and options byte,
`packScanData` yields exactly 10 bytes laid out as
`[numScans u32 LE][pacerPeriod u32 LE][mask][options]` (stated via
little-endian decoding of the byte fields), and the concrete vector
`numScans = 1, frequency = 10000, channels = 0x01, options = 0x00` yields
`01 00 00 00 9F 0F 00 00 01 00`. -/
theorem claim_packScanData :
    (∀ (numScans : Int) (frequency : ℚ) (channels options : Nat),
       (packScanData numScans frequency channels options).length = 10 ∧
       getUint32LE ((packScanData numScans frequency channels options).take 4) =
         uint32OfInt numScans ∧
       getUint32LE (((packScanData numScans frequency channels options).drop 4).take 4) =
         uint32OfInt (calculatePacerPeriod frequency) ∧
       (packScanData numScans frequency channels options).getD 8 0 = channels ∧
       (packScanData numScans frequency channels options).getD 9 0 = options)
    ∧ packScanData 1 10000 1 0 =
        [0x01, 0x00, 0x00, 0x00, 0x9F, 0x0F, 0x00, 0x00, 0x01, 0x00] := by
  constructor
  · intro ns f ch op
    exact ⟨rfl, getUint32LE_putUint32LE _ (uint32OfInt_lt ns),
      getUint32LE_putUint32LE _ (uint32OfInt_lt _), rfl, rfl⟩
  · simp only [packScanData, calculatePacerPeriod_10000]
    decide

/-- C7: for every word `w < 65536` and range code `r`, the raw conversion
equals `VoltageMultiplier r * (w - 32768) / 32768`; it is monotone
non-decreasing in `w`; the midpoint 32768 maps to 0 for every range; and
the three concrete ±10V byte vectors hold (`163835 / 16384` is the exact
value `9.99969482421875`). -/
theorem claim_rawVoltsFromWord :
    (∀ w r : Nat, w < 65536 →
       RawVoltsFromWord (EncodeWord w) r =
         .ok (VoltageMultiplier r * ((w : ℚ) - 32768) / 32768))
    ∧ (∀ r w w' : Nat, w ≤ w' → w' < 65536 → ∀ v v' : ℚ,
        RawVoltsFromWord (EncodeWord w) r = .ok v →
        RawVoltsFromWord (EncodeWord w') r = .ok v' → v ≤ v')
    ∧ (∀ r : Nat, RawVoltsFromWord (EncodeWord 32768) r = .ok 0)
    ∧ RawVoltsFromWord [0x00, 0x00] 0 = .ok (-10)
    ∧ RawVoltsFromWord [0x00, 0x80] 0 = .ok 0
    ∧ RawVoltsFromWord [0xFF, 0xFF] 0 = .ok (163835 / 16384) := by
  refine ⟨rawVoltsFromWord_eq, ?_, ?_, ?_, ?_, ?_⟩
  · intro r w w' hww hw' v v' hv hv'
    rw [rawVoltsFromWord_eq w r (lt_of_le_of_lt hww hw')] at hv
    rw [rawVoltsFromWord_eq w' r hw'] at hv'
    simp only [Except.ok.injEq] at hv hv'
    subst hv hv'
    have hm := multiplier_nonneg r
    have hc : (w : ℚ) ≤ (w' : ℚ) := by exact_mod_cast hww
    gcongr
  · intro r
    rw [rawVoltsFromWord_eq 32768 r (by norm_num)]
    norm_num
  · simp only [RawVoltsFromWord, Volts, VoltageMultiplier, DecodeWord,
      bytesPerWord, converter]
    norm_num
  · simp only [RawVoltsFromWord, Volts, VoltageMultiplier, DecodeWord,
      bytesPerWord, converter]
    norm_num
  · simp only [RawVoltsFromWord, Volts, VoltageMultiplier, DecodeWord,
      bytesPerWord, converter]
    norm_num

/-- Witness for C7: the closed form at `(w, r) = (40000, 1)` and
monotonicity between the words 100 and 200 on the ±10V range. -/
theorem claim_rawVoltsFromWord_witness :
    RawVoltsFromWord (EncodeWord 40000) 1 =
      .ok (VoltageMultiplier 1 * ((40000 : ℚ) - 32768) / 32768) ∧
    VoltageMultiplier 0 * ((100 : ℚ) - 32768) / 32768 ≤
      VoltageMultiplier 0 * ((200 : ℚ) - 32768) / 32768 :=
  ⟨claim_rawVoltsFromWord.1 40000 1 (by norm_num),
   claim_rawVoltsFromWord.2.1 0 100 200 (by norm_num) (by norm_num) _ _
     (claim_rawVoltsFromWord.1 100 0 (by norm_num))
     (claim_rawVoltsFromWord.1 200 0 (by norm_num))⟩

/-- C8: with `slope = 1` and `offset = 0` the calibrated conversion agrees
exactly with the raw conversion, for every byte buffer and every range
code (including the length-mismatch error cases, which coincide). -/
theorem claim_voltsFromWord_identity (data : List Nat) (r : Nat) :
    VoltsFromWord data r 1 0 = RawVoltsFromWord data r := by
  unfold VoltsFromWord RawVoltsFromWord
  by_cases h : data.length ≠ bytesPerWord
  · rw [if_pos h, if_pos h]
  · rw [if_neg h, if_neg h, adjustRawValue_one_zero]

theorem gainRow_shape (dev : CalDevice) :
    ∀ fuel addr, (gainRow dev fuel addr).1.length = fuel ∧
      (gainRow dev fuel addr).2.1.length = fuel := by
  intro fuel
  induction fuel with
  | zero => exact fun _ => ⟨rfl, rfl⟩
  | succ n ih =>
    intro addr
    simp only [gainRow, List.length_cons]
    exact ⟨by rw [(ih _).1], by rw [(ih _).2]⟩

theorem gainRows_shape (dev : CalDevice) :
    ∀ fuel addr, (gainRows dev fuel addr).1.length = fuel ∧
      (gainRows dev fuel addr).2.1.length = fuel ∧
      (∀ row ∈ (gainRows dev fuel addr).1, row.length = maxNumADChannels) ∧
      (∀ row ∈ (gainRows dev fuel addr).2.1, row.length = maxNumADChannels) := by
  intro fuel
  induction fuel with
  | zero =>
    exact fun _ => ⟨rfl, rfl, fun r hr => absurd hr (List.not_mem_nil r),
      fun r hr => absurd hr (List.not_mem_nil r)⟩
  | succ n ih =>
    intro addr
    refine ⟨?_, ?_, ?_, ?_⟩
    · simp only [gainRows, List.length_cons]
      rw [(ih _).1]
    · simp only [gainRows, List.length_cons]
      rw [(ih _).2.1]
    · simp only [gainRows, List.mem_cons]
      rintro row (rfl | hr)
      · exact (gainRow_shape dev _ _).1
      · exact (ih _).2.2.1 row hr
    · simp only [gainRows, List.mem_cons]
      rintro row (rfl | hr)
      · exact (gainRow_shape dev _ _).2
      · exact (ih _).2.2.2 row hr

/-- C2 (amended): `BuildGainTable` always returns a fully populated 8x8
slope/intercept table together with a nil error, for every transport — in
particular when underlying calibration-memory transfers fail, the failure
is silently dropped rather than surfaced. -/
theorem claim_buildGainTable_amended (dev : CalDevice) :
    (BuildGainTable dev).2 = none ∧
    (BuildGainTable dev).1.Slope.length = 8 ∧
    (BuildGainTable dev).1.Intercept.length = 8 ∧
    (∀ i : Fin 8, ((BuildGainTable dev).1.Slope.getD i.val []).length = 8) ∧
    (∀ i : Fin 8, ((BuildGainTable dev).1.Intercept.getD i.val []).length = 8) := by
  have hs := gainRows_shape dev maxNumGainLevels 0
  refine ⟨rfl, hs.1, hs.2.1, ?_, ?_⟩
  · intro i
    have hi : i.val < (gainRows dev maxNumGainLevels 0).1.length := by
      rw [hs.1]; exact i.isLt
    rw [show (BuildGainTable dev).1.Slope = (gainRows dev maxNumGainLevels 0).1 from rfl,
      List.getD_eq_getElem _ _ hi]
    exact hs.2.2.1 _ (List.getElem_mem hi)
  · intro i
    have hi : i.val < (gainRows dev maxNumGainLevels 0).2.1.length := by
      rw [hs.2.1]; exact i.isLt
    rw [show (BuildGainTable dev).1.Intercept = (gainRows dev maxNumGainLevels 0).2.1 from rfl,
      List.getD_eq_getElem _ _ hi]
    exact hs.2.2.2 _ (List.getElem_mem hi)

/-- A calibration transport on which every control transfer fails and
writes nothing. -/
def failingCalDevice : CalDevice := ⟨fun _ _ => (some "transfer failed", [])⟩

/-- C2 counterexample: on a transport whose every transfer fails,
`ReadCalMemory` reports success on an in-range read (the transfer error is
discarded, the zero-filled buffer is returned) and `BuildGainTable`
reports a nil error instead of a calibration-read failure. -/
theorem claim_buildGainTable_cex :
    (failingCalDevice.ctrl 0 4).1 = some "transfer failed" ∧
    (ReadCalMemory failingCalDevice 0 4).1 = .ok [0, 0, 0, 0] ∧
    (BuildGainTable failingCalDevice).2 = none :=
  ⟨rfl, rfl, rfl⟩

/-- A transport whose bulk reads always deliver exactly the requested
number of bytes (each byte `7`) and whose status reads return the fixed
byte `statusByte`. -/
def constDAQ (statusByte : Nat) : DAQer Unit where
  sendCommandToDevice := fun _ _ _ => ((), .ok 0)
  read := fun _ k => ((), k, List.replicate k 7, none)
  status := fun _ => ((), .ok statusByte)

/-- A block-transfer-mode `AnalogInput` over the given transport. -/
def blockAI (σ : Type) (daq : DAQer σ) : AnalogInput σ where
  DAQ := daq
  Frequency := 10000
  TransferMode := BlockTransfer
  Trigger := 0
  UseExternalPacer := false
  OutputPacerOnSync := false
  DebugMode := false
  Stall := 0
  Channels := []

/-- C3 (amended): `Read` rejects, before any device interaction, exactly
those buffer lengths that are not multiples of the 64-byte bulk packet
size; length 0 is a multiple of 64 and is accepted — the concrete length-0
run proceeds to issue transfers.  (A Go slice length is never negative, so
no negative length can reach the check.) -/
theorem claim_read_framing_amended :
    (∀ (σ : Type) (ai : AnalogInput σ) (st : σ) (p : List Nat),
       p.length % maxBulkTransferPacketSize ≠ 0 →
       (Read ai st p).err.isSome = true ∧ (Read ai st p).trace = [] ∧
       (Read ai st p).n = 0)
    ∧ ((0 : Nat) % maxBulkTransferPacketSize = 0 ∧
       (Read (blockAI Unit (constDAQ 0)) () []).err = none ∧
       (Read (blockAI Unit (constDAQ 0)) () []).trace ≠ []) := by
  constructor
  · intro σ ai st p h
    simp [Read, if_pos h]
  · refine ⟨by decide, by decide, by decide⟩

/-- Witness for C3 at the non-conforming length 1. -/
theorem claim_read_framing_amended_witness :
    (Read (blockAI Unit (constDAQ 0)) () [1]).err.isSome = true ∧
    (Read (blockAI Unit (constDAQ 0)) () [1]).trace = [] ∧
    (Read (blockAI Unit (constDAQ 0)) () [1]).n = 0 :=
  claim_read_framing_amended.1 Unit (blockAI Unit (constDAQ 0)) () [1] (by decide)

/-- C3 counterexample: the claim asserts the framing rejection applies to
length 0, but 0 is a multiple of 64 and a length-0 `Read` is not rejected:
it returns a nil error and interacts with the device (bulk read, status
read, and the 2-byte drain read). -/
theorem claim_read_framing_cex :
    (0 : Nat) % maxBulkTransferPacketSize = 0 ∧
    (Read (blockAI Unit (constDAQ 0)) () []).err = none ∧
    (Read (blockAI Unit (constDAQ 0)) () []).trace =
      [DAQEvent.bulkRead 0, DAQEvent.statusRead, DAQEvent.bulkRead bytesPerWord] := by
  refine ⟨by decide, by decide, by decide⟩

/-- C1 (amended): whatever the transfer mode, when the transfer phase of
`Read` succeeds and the subsequent status read indicates overrun, `Read`
issues `StopScan` followed by `ClearScanBuffer` as an automatic recovery
action and returns the data collected up to that point (count `n` and the
internal buffer), but the overrun is only logged: the error value returned
to the caller is nil, not a `ScanOverrunError`. -/
theorem claim_read_overrun_amended (σ : Type) (ai : AnalogInput σ)
    (st st1 st2 : σ) (p dataBuf : List Nat) (tr : List DAQEvent) (n s : Nat)
    (hlen : p.length % maxBulkTransferPacketSize = 0)
    (hstep : transferPhase ai st p = (st1, n, dataBuf, tr, none))
    (hstatus : ai.DAQ.status st1 = (st2, .ok s))
    (hover : s &&& scanOverrun ≠ 0) :
    (Read ai st p).err = none ∧ (Read ai st p).n = n ∧
    (Read ai st p).internalData = dataBuf ∧
    (Read ai st p).trace =
      tr ++ [DAQEvent.statusRead] ++
        (if s &&& scanRunning = 0 then [DAQEvent.bulkRead bytesPerWord] else []) ++
        [DAQEvent.command commandAnalogStopScan [],
         DAQEvent.command commandAnalogClearBuffer []] := by
  simp [Read, hlen, hstep, hstatus, hover]
  by_cases hrun : s &&& scanRunning = 0 <;> simp [hrun]

/-- An immediate-transfer-mode session whose transport reports 2 bytes
`[9, 9]` on every bulk read and whose status byte is 6 (scan-running and
overrun both set). -/
def overrunImmediateAI : AnalogInput Nat :=
  { blockAI Nat
      { sendCommandToDevice := fun s _ _ => (s, .ok 0)
        read := fun s _ => (s + 1, 2, [9, 9], none)
        status := fun s => (s, .ok 6) } with
    TransferMode := ImmediateTransfer }

/-- Witness for C1: concrete 64-byte overrun reads in each transfer mode —
block mode against the status byte 4 (overrun set, scan-running clear) and
immediate mode against the status byte 6 (overrun and scan-running set). -/
theorem claim_read_overrun_amended_witness :
    ((Read (blockAI Unit (constDAQ 4)) () (List.replicate 64 0)).err = none ∧
     (Read (blockAI Unit (constDAQ 4)) () (List.replicate 64 0)).n = 64 ∧
     (Read (blockAI Unit (constDAQ 4)) () (List.replicate 64 0)).internalData =
       List.replicate 64 7 ∧
     (Read (blockAI Unit (constDAQ 4)) () (List.replicate 64 0)).trace =
       [DAQEvent.bulkRead 64] ++ [DAQEvent.statusRead] ++
         (if 4 &&& scanRunning = 0 then [DAQEvent.bulkRead bytesPerWord] else []) ++
         [DAQEvent.command commandAnalogStopScan [],
          DAQEvent.command commandAnalogClearBuffer []]) ∧
    ((Read overrunImmediateAI 0 (List.replicate 64 0)).err = none ∧
     (Read overrunImmediateAI 0 (List.replicate 64 0)).n = 64) :=
  ⟨claim_read_overrun_amended Unit (blockAI Unit (constDAQ 4)) () () ()
     (List.replicate 64 0) (List.replicate 64 7) [DAQEvent.bulkRead 64] 64 4
     (by decide) (by decide) rfl (by decide),
   (claim_read_overrun_amended Nat overrunImmediateAI 0
      (transferPhase overrunImmediateAI 0 (List.replicate 64 0)).1 _
      (List.replicate 64 0)
      (transferPhase overrunImmediateAI 0 (List.replicate 64 0)).2.2.1
      (transferPhase overrunImmediateAI 0 (List.replicate 64 0)).2.2.2.1
      (transferPhase overrunImmediateAI 0 (List.replicate 64 0)).2.1 6
      (by decide) (by decide) rfl (by decide)).1,
   (claim_read_overrun_amended Nat overrunImmediateAI 0
      (transferPhase overrunImmediateAI 0 (List.replicate 64 0)).1 _
      (List.replicate 64 0)
      (transferPhase overrunImmediateAI 0 (List.replicate 64 0)).2.2.1
      (transferPhase overrunImmediateAI 0 (List.replicate 64 0)).2.2.2.1
      (transferPhase overrunImmediateAI 0 (List.replicate 64 0)).2.1 6
      (by decide) (by decide) rfl (by decide)).2.1.trans (by decide)⟩

/-- C1 counterexample: the status byte 4 sets the overrun bit, yet the
concrete overrun `Read` returns a nil error value (the overrun is only
logged), contradicting the claim that a non-nil retryable
`ScanOverrunError` is reported to the caller. -/
theorem claim_read_overrun_cex :
    ((constDAQ 4).status () = ((), .ok 4) ∧ 4 &&& scanOverrun ≠ 0) ∧
    (Read (blockAI Unit (constDAQ 4)) () (List.replicate 64 0)).err = none ∧
    (Read (blockAI Unit (constDAQ 4)) () (List.replicate 64 0)).n = 64 ∧
    (Read (blockAI Unit (constDAQ 4)) () (List.replicate 64 0)).trace =
      [DAQEvent.bulkRead 64, DAQEvent.statusRead, DAQEvent.bulkRead 2,
       DAQEvent.command commandAnalogStopScan [],
       DAQEvent.command commandAnalogClearBuffer []] := by
  exact ⟨⟨rfl, by decide⟩, by decide, by decide, by decide⟩

theorem getD_set_ne (l : List Nat) (i j x : Nat) (h : i ≠ j) :
    (l.set i x).getD j 0 = l.getD j 0 := by
  simp [List.getD_eq_getElem?_getD, List.getElem?_set_ne h]

theorem getD_set_self (l : List Nat) (i x : Nat) (h : i < l.length) :
    (l.set i x).getD i 0 = x := by
  simp [List.getD_eq_getElem?_getD, List.getElem?_set_eq_of_lt x h]

theorem fillBuffer_of_length_eq (buf src : List Nat) (h : buf.length = src.length) :
    fillBuffer buf src = src := by
  unfold fillBuffer
  rw [h, List.take_length, ← h, List.drop_length, List.append_nil]

/-- A transport for immediate-transfer mode: the state counts the bulk
reads issued; the i-th read reports 2 bytes and delivers the word
`[a i, b i]`.  The status byte 2 keeps the scan-running bit set (no drain
read, no overrun). -/
def wordDAQ (a b : Nat → Nat) : DAQer Nat where
  sendCommandToDevice := fun s _ _ => (s, .ok 0)
  read := fun s _ => (s + 1, 2, [a s, b s], none)
  status := fun s => (s, .ok 2)

/-- An immediate-transfer-mode `AnalogInput` over `wordDAQ`. -/
def immediateAI (a b : Nat → Nat) : AnalogInput Nat :=
  { blockAI Nat (wordDAQ a b) with TransferMode := ImmediateTransfer }

theorem immediateLoop_wordDAQ (a b : Nat → Nat) :
    ∀ (fuel i n : Nat) (data : List Nat) (tr : List DAQEvent),
      i + fuel ≤ data.length →
      (immediateLoop (wordDAQ a b) fuel i i n data tr).2.2.2.2 = none ∧
      (immediateLoop (wordDAQ a b) fuel i i n data tr).2.1 = n + 2 * fuel ∧
      (immediateLoop (wordDAQ a b) fuel i i n data tr).2.2.1.length = data.length ∧
      (∀ j, j < i →
        (immediateLoop (wordDAQ a b) fuel i i n data tr).2.2.1.getD j 0 =
          data.getD j 0) ∧
      (∀ j, i ≤ j → j < i + fuel →
        (immediateLoop (wordDAQ a b) fuel i i n data tr).2.2.1.getD j 0 = a j) ∧
      (i + fuel < data.length → 0 < fuel →
        (immediateLoop (wordDAQ a b) fuel i i n data tr).2.2.1.getD (i + fuel) 0 =
          b (i + fuel - 1)) := by
  intro fuel
  induction fuel with
  | zero =>
    intro i n data tr h
    refine ⟨rfl, by simp [immediateLoop], rfl, fun j _ => rfl, ?_, ?_⟩
    · intro j h1 h2; omega
    · intro _ h0; omega
  | succ fuel ih =>
    intro i n data tr h
    have hstep :
        immediateLoop (wordDAQ a b) (fuel + 1) i i n data tr =
          immediateLoop (wordDAQ a b) fuel (i + 1) (i + 1) (n + 2)
            ((data.set i (a i)).set (i + 1) (b i))
            (tr ++ [DAQEvent.bulkRead bytesPerWord]) := by
      simp [immediateLoop, wordDAQ, bytesPerWord, fillBuffer]
    have hlen : (i + 1) + fuel ≤ ((data.set i (a i)).set (i + 1) (b i)).length := by
      simp only [List.length_set]; omega
    have IH := ih (i + 1) (n + 2) ((data.set i (a i)).set (i + 1) (b i))
      (tr ++ [DAQEvent.bulkRead bytesPerWord]) hlen
    rw [hstep]
    refine ⟨IH.1, by rw [IH.2.1]; omega, by rw [IH.2.2.1]; simp, ?_, ?_, ?_⟩
    · intro j hj
      rw [IH.2.2.2.1 j (by omega), getD_set_ne _ _ _ _ (by omega),
        getD_set_ne _ _ _ _ (by omega)]
    · intro j hij hjf
      rcases Nat.eq_or_lt_of_le hij with hji | hji
      · subst hji
        rw [IH.2.2.2.1 i (by omega), getD_set_ne _ _ _ _ (by omega),
          getD_set_self _ _ _ (by omega)]
      · exact IH.2.2.2.2.1 j (by omega) (by omega)
    · intro hlt _
      rcases Nat.eq_zero_or_pos fuel with hf | hf
      · subst hf
        have hbase :
            immediateLoop (wordDAQ a b) 0 (i + 1) (i + 1) (n + 2)
                ((data.set i (a i)).set (i + 1) (b i))
                (tr ++ [DAQEvent.bulkRead bytesPerWord]) =
              (i + 1, n + 2, (data.set i (a i)).set (i + 1) (b i),
                tr ++ [DAQEvent.bulkRead bytesPerWord], none) := by
          simp [immediateLoop]
        rw [hbase]
        have h1 : i + (0 + 1) = i + 1 := by omega
        have h2 : i + (0 + 1) - 1 = i := by omega
        rw [h1, h2, getD_set_self _ _ _ (by simp only [List.length_set]; omega)]
      · have hres := IH.2.2.2.2.2 (by simp only [List.length_set]; omega) hf
        have h2 : i + 1 + fuel - 1 = i + (fuel + 1) - 1 := by omega
        have h1 : i + 1 + fuel = i + (fuel + 1) := by omega
        rw [h2, h1] at hres
        exact hres

/-- C10: for every successful block-mode `Read(p)`, the caller's buffer is
unchanged — the received bytes live only in the internal buffer — although
the returned count equals the number of bytes received; and in immediate
transfer mode the i-th received word lands at internal offsets `i` and
`i+1` (so the final buffer holds the low byte of word `j` at offset `j`,
with the high byte of the last word at offset `wordsToRead`), not at `2i`
and `2i+1`. -/
theorem claim_read_frame_effect :
    (∀ (σ : Type) (ai : AnalogInput σ) (st st1 st2 : σ)
       (p bytes : List Nat) (s : Nat),
       ai.TransferMode = BlockTransfer →
       p.length % maxBulkTransferPacketSize = 0 →
       ai.DAQ.read st p.length = (st1, p.length, bytes, none) →
       bytes.length = p.length →
       ai.DAQ.status st1 = (st2, .ok s) →
       (Read ai st p).err = none ∧
       (Read ai st p).finalP = p ∧
       (Read ai st p).n = p.length ∧
       (Read ai st p).internalData = bytes)
    ∧ (∀ (a b : Nat → Nat) (p : List Nat),
       p.length % maxBulkTransferPacketSize = 0 →
       (Read (immediateAI a b) 0 p).err = none ∧
       (Read (immediateAI a b) 0 p).finalP = p ∧
       (Read (immediateAI a b) 0 p).n = p.length ∧
       (∀ j, j < p.length / bytesPerWord →
         (Read (immediateAI a b) 0 p).internalData.getD j 0 = a j) ∧
       (0 < p.length / bytesPerWord →
         (Read (immediateAI a b) 0 p).internalData.getD (p.length / bytesPerWord) 0 =
           b (p.length / bytesPerWord - 1))) := by
  constructor
  · intro σ ai st st1 st2 p bytes s hmode hlen hread hb hstatus
    simp [Read, transferPhase, hmode, BlockTransfer, ImmediateTransfer, hlen,
      hread, hstatus]
    rw [fillBuffer_of_length_eq _ _ (by simp [hb])]
  · intro a b p hlen
    have h64 : p.length % 64 = 0 := hlen
    have hbpw : p.length / bytesPerWord = p.length / 2 := rfl
    have hfuel : 0 + p.length / bytesPerWord ≤ (List.replicate p.length (0 : Nat)).length := by
      rw [List.length_replicate, hbpw]
      omega
    have hloop := immediateLoop_wordDAQ a b (p.length / bytesPerWord) 0 0
      (List.replicate p.length 0) [] hfuel
    have hstat : ∀ s : Nat, (wordDAQ a b).status s = (s, Except.ok 2) := fun _ => rfl
    have hA4 : (2 : Nat) &&& 4 = 0 := by decide
    have hA2 : ¬(2 : Nat) &&& 2 = 0 := by decide
    refine ⟨?_, ?_, ?_, ?_, ?_⟩
    · simp [Read, transferPhase, immediateAI, blockAI, ImmediateTransfer, hlen,
        hloop.1, hstat, scanRunning, scanOverrun, hA4, hA2]
    · simp [Read, transferPhase, immediateAI, blockAI, ImmediateTransfer, hlen,
        hloop.1, hstat, scanRunning, scanOverrun, hA4, hA2]
    · simp [Read, transferPhase, immediateAI, blockAI, ImmediateTransfer, hlen,
        hloop.1, hstat, scanRunning, scanOverrun, hA4, hA2, hloop.2.1]
      rw [hbpw]
      omega
    · intro j hj
      have ha := hloop.2.2.2.2.1 j (Nat.zero_le j) (by omega)
      simp [Read, transferPhase, immediateAI, blockAI, ImmediateTransfer, hlen,
        hloop.1, hstat, scanRunning, scanOverrun, hA4, hA2]
      simpa using ha
    · intro hpos
      have hb2 := hloop.2.2.2.2.2
        (by rw [List.length_replicate]; rw [hbpw] at hpos ⊢; omega) hpos
      simp [Read, transferPhase, immediateAI, blockAI, ImmediateTransfer, hlen,
        hloop.1, hstat, scanRunning, scanOverrun, hA4, hA2]
      simpa using hb2

/-- Witness for C10: a concrete 64-byte read in each transfer mode. -/
theorem claim_read_frame_effect_witness :
    ((Read (blockAI Unit (constDAQ 2)) () (List.replicate 64 0)).err = none ∧
     (Read (blockAI Unit (constDAQ 2)) () (List.replicate 64 0)).finalP =
       List.replicate 64 0 ∧
     (Read (blockAI Unit (constDAQ 2)) () (List.replicate 64 0)).n = 64 ∧
     (Read (blockAI Unit (constDAQ 2)) () (List.replicate 64 0)).internalData =
       List.replicate 64 7) ∧
    ((Read (immediateAI (fun i => 100 + i) (fun i => 200 + i)) 0
        (List.replicate 64 0)).err = none ∧
     (Read (immediateAI (fun i => 100 + i) (fun i => 200 + i)) 0
        (List.replicate 64 0)).internalData.getD 5 0 = 100 + 5) :=
  ⟨claim_read_frame_effect.1 Unit (blockAI Unit (constDAQ 2)) () () ()
     (List.replicate 64 0) (List.replicate 64 7) 2 rfl (by decide) rfl rfl rfl,
   (claim_read_frame_effect.2 (fun i => 100 + i) (fun i => 200 + i)
      (List.replicate 64 0) (by decide)).1,
   (claim_read_frame_effect.2 (fun i => 100 + i) (fun i => 200 + i)
      (List.replicate 64 0) (by decide)).2.2.2.1 5 (by decide)⟩

theorem mapExcept_ok_of_forall {α β : Type} (f : α → Except String β)
    (P : β → Prop) (l : List α)
    (h : ∀ x ∈ l, ∃ y, f x = .ok y ∧ P y) :
    ∃ ys, mapExcept f l = .ok ys ∧ ys.length = l.length ∧ ∀ y ∈ ys, P y := by
  induction l with
  | nil => exact ⟨[], rfl, rfl, fun y hy => absurd hy (List.not_mem_nil y)⟩
  | cons x xs ih =>
    obtain ⟨y, hy, hPy⟩ := h x (List.mem_cons_self x xs)
    obtain ⟨ys, hys, hlen, hP⟩ := ih fun z hz => h z (List.mem_cons_of_mem x hz)
    refine ⟨y :: ys, by simp [mapExcept, hy, hys], by simp [hlen], ?_⟩
    intro z hz
    rcases List.mem_cons.mp hz with rfl | hz
    · exact hPy
    · exact hP z hz

theorem sliceWord_length (data : List Nat) (firstByte : Nat)
    (h : firstByte + 2 ≤ data.length) :
    (sliceWord data firstByte).length = bytesPerWord := by
  unfold sliceWord bytesPerWord
  rw [List.length_take, List.length_drop]
  omega

theorem voltsFromWord_ok (data : List Nat) (r : Nat) (slope offset : ℚ)
    (h : data.length = bytesPerWord) :
    ∃ v, VoltsFromWord data r slope offset = .ok v := by
  unfold VoltsFromWord
  rw [if_neg (by omega)]
  exact ⟨_, rfl⟩

/-- C4 (amended): `Voltages` splits the buffer by the *total* channel
count: with the fixed 8 channels, `numScans = len(buffer) / (2 × 8)`, a
buffer whose length is not a multiple of 16 fails with the framing error,
and a conforming buffer yields a matrix with one row for *each of the 8
channels* (not one per enabled channel) of `numScans` entries each. -/
theorem claim_voltages_amended (σ : Type) (ai : AnalogInput σ) (data : List Nat)
    (h8 : ai.Channels.length = 8) :
    (data.length % 16 ≠ 0 → ∃ e, Voltages ai data = .error e) ∧
    (data.length % 16 = 0 → ∃ m, Voltages ai data = .ok m ∧ m.length = 8 ∧
      ∀ row ∈ m, row.length = data.length / 16) := by
  have hbw : bytesPerWord = 2 := rfl
  have h28 : (2 : Nat) * 8 = 16 := rfl
  constructor
  · intro h
    unfold Voltages
    rw [h8, hbw, h28, if_pos h]
    exact ⟨_, rfl⟩
  · intro h
    unfold Voltages
    rw [h8, hbw, h28, if_neg (by omega)]
    refine (mapExcept_ok_of_forall _
        (fun row : List ℚ => row.length = data.length / 16) _ ?_).imp
      fun m hm => ⟨hm.1, by simpa using hm.2.1, hm.2.2⟩
    intro i hi
    rw [List.mem_range] at hi
    refine ((mapExcept_ok_of_forall _ (fun _ : ℚ => True) _ ?_).imp
      fun rs hrs => ⟨hrs.1, by simpa [List.length_range] using hrs.2.1⟩)
    intro scan hs
    rw [List.mem_range] at hs
    obtain ⟨v, hv⟩ := voltsFromWord_ok _ _ _ _
      (sliceWord_length data ((scan * 8 + i) * 2) (by omega))
    exact ⟨v, hv, trivial⟩

/-- A channel with the ±10V range and identity calibration. -/
def sampleChannel (en : Bool) : Channel :=
  { Enabled := en, Range := 0, Description := "", Slopes := fun _ => 1,
    Intercepts := fun _ => 0 }

/-- Eight channels with exactly channels 0 and 1 enabled. -/
def twoOfEightAI : AnalogInput Unit :=
  { blockAI Unit (constDAQ 0) with
    Channels := [sampleChannel true, sampleChannel true, sampleChannel false,
      sampleChannel false, sampleChannel false, sampleChannel false,
      sampleChannel false, sampleChannel false] }

/-- Witness for C4: the framing rejection at 4 bytes and the accepted
16-byte buffer yielding an 8-by-1 matrix, on the 2-of-8 configuration. -/
theorem claim_voltages_amended_witness :
    (∃ e, Voltages twoOfEightAI [0, 0, 0, 0] = .error e) ∧
    (∃ m, Voltages twoOfEightAI (List.replicate 16 0) = .ok m ∧ m.length = 8 ∧
      ∀ row ∈ m, row.length = (List.replicate 16 (0 : Nat)).length / 16) :=
  ⟨(claim_voltages_amended Unit twoOfEightAI [0, 0, 0, 0] rfl).1 (by decide),
   (claim_voltages_amended Unit twoOfEightAI (List.replicate 16 0) rfl).2 (by decide)⟩

/-- C4 counterexample: with exactly 2 of 8 channels enabled, a buffer of
`N × 2 × 2` bytes for `N = 1` (4 bytes) makes the claimed division
`len / (2 × enabledChannels)` exact, yet `Voltages` rejects it with the
framing error — the code divides by the total channel count 8, not by the
enabled count 2, so no 2-by-N matrix is produced. -/
theorem claim_voltages_cex :
    twoOfEightAI.Channels.countP (fun ch => ch.Enabled) = 2 ∧
    twoOfEightAI.Channels.length = 8 ∧
    4 % (2 * 2) = 0 ∧
    Voltages twoOfEightAI [0, 0, 0, 0] =
      .error "data len must be multiple of 2 bytes x 8 channels" :=
  ⟨by decide, rfl, by decide, rfl⟩

end Mccdaq
